import Mathlib

/-!
# Verification of the Open MCT `TimeAPI` (src/api/time/TimeAPI.js)

A shallow embedding of the `TimeAPI` class from the repository source
(`class TimeAPI extends GlobalTimeContext`).  JavaScript `Map`s are embedded
as association lists (`List (String × α)`) with `Map.set` / `Map.get` /
`Map.delete` semantics: `set` replaces the value in place when the key is
present (keeping the original insertion position) and appends otherwise;
iteration order is insertion order.

`IndependentTimeContext` itself is defined outside the visible sources; the
claims settled here only concern which of its methods `TimeAPI` invokes and
with which arguments, so an independent context is embedded as its
construction arguments plus the ordered trace of method calls applied to it.

External collaborators (`openmct.objects.makeKeyString` and
`openmct.objects.getRelativePath`) are fields of an `ObjectAPI` record, so
theorems quantify over arbitrary implementations of them.  A JavaScript
falsy string result of `makeKeyString` is embedded as `""`.
-/

namespace OpenMCT

/-- A domain-object identifier.  `makeKeyString` turns one into a stable
string key; the identifier itself is opaque to `TimeAPI`, so it is embedded
as a string payload. -/
abbrev Identifier := String

/-- A domain object as seen by `TimeAPI.getContextForView`: only its
`identifier` field is read. -/
structure DomainObject where
  identifier : Identifier
  deriving Repr, DecidableEq

/-- A view's object path: ordered sequence of domain objects, the first
element being the object the view is keyed on. -/
abbrev ObjectPath := List DomainObject

/-- The external `openmct.objects` capabilities used by `TimeAPI`:
`makeKeyString` (identifier → key string; `""` embeds a falsy result) and
`getRelativePath` (object path → relative-path string). -/
structure ObjectAPI where
  makeKeyString : Identifier → String
  getRelativePath : ObjectPath → String

/-- `FIXED_MODE_KEY` from `@/api/time/constants`. -/
def FIXED_MODE_KEY : String := "fixed"

/-- `REALTIME_MODE_KEY` from `@/api/time/constants`. -/
def REALTIME_MODE_KEY : String := "realtime"

/-- The `value` argument of `addIndependentContext`: either `TimeBounds`
(start, end) or `ClockOffsets` (start, end offsets); in both cases a pair of
numbers. -/
abbrev TimeValue := Int × Int

/-- A method call performed on an `IndependentTimeContext` by `TimeAPI`.
The context class itself lives outside the visible sources, so calls are
recorded as a trace. -/
inductive TCCall where
  | resetContext : TCCall
  | setMode (modeKey : String) : TCCall
  | setClock (clockKey : String) (value : TimeValue) : TCCall
  | setBounds (value : TimeValue) : TCCall
  deriving Repr, DecidableEq

/-- An `IndependentTimeContext` as visible to `TimeAPI`: the object path it
was constructed with (`new IndependentTimeContext(openmct, this, objectPath)`),
an allocation identity (distinct per `new`, embedding JavaScript reference
identity), and the ordered trace of method calls applied to it. -/
structure IndependentTimeContext where
  id : Nat
  objectPath : ObjectPath
  calls : List TCCall
  deriving Repr, DecidableEq

/-- A registered `TimeSystem` descriptor (only `key` is read by `TimeAPI`;
`name` stands for the remaining descriptor payload). -/
structure TimeSystem where
  key : String
  name : String
  deriving Repr, DecidableEq

/-- A registered `Clock` descriptor (only `key` is read by `TimeAPI`;
`name` stands for the remaining descriptor payload). -/
structure Clock where
  key : String
  name : String
  deriving Repr, DecidableEq

/-- JavaScript `Map.prototype.get`: first (unique, by the `Map` invariant)
entry for the key. -/
def mapGet {α : Type} : List (String × α) → String → Option α
  | [], _ => none
  | (k', v) :: rest, k => if k' = k then some v else mapGet rest k

/-- JavaScript `Map.prototype.set`: replace in place when the key is
present, append otherwise. -/
def mapSet {α : Type} : List (String × α) → String → α → List (String × α)
  | [], k, v => [(k, v)]
  | (k', v') :: rest, k, v =>
    if k' = k then (k, v) :: rest else (k', v') :: mapSet rest k v

/-- JavaScript `Map.prototype.delete`: remove the entry for the key. -/
def mapDelete {α : Type} : List (String × α) → String → List (String × α)
  | [], _ => []
  | (k', v') :: rest, k => if k' = k then rest else (k', v') :: mapDelete rest k

/-- An emitted event: `(eventName, objectKey)`, from `this.emit(name, key)`. -/
abbrev EmitRecord := String × String

/-- The mutable state of a `TimeAPI` instance: the two registries
(`this.timeSystems`, `this.clocks`, inherited from `GlobalTimeContext`), the
independent-context registry (`this.independentContexts`), the log of events
emitted on the global context, and the allocation counter backing
`IndependentTimeContext` identities. -/
structure TimeAPI where
  timeSystems : List (String × TimeSystem)
  clocks : List (String × Clock)
  independentContexts : List (String × IndependentTimeContext)
  emitted : List EmitRecord
  nextId : Nat
  deriving Repr, DecidableEq

/-- Modelled from the spec: the `GlobalTimeContext` constructor (not among
the visible sources) initializes the `timeSystems` and `clocks` registries
to empty `Map`s; the visible `TimeAPI` constructor initializes
`this.independentContexts = new Map()`. -/
def TimeAPI.init : TimeAPI := ⟨[], [], [], [], 0⟩

/-- `addTimeSystem(timeSystem)`: `this.timeSystems.set(timeSystem.key, timeSystem)`. -/
def TimeAPI.addTimeSystem (s : TimeAPI) (timeSystem : TimeSystem) : TimeAPI :=
  { s with timeSystems := mapSet s.timeSystems timeSystem.key timeSystem }

/-- `getAllTimeSystems()`: `Array.from(this.timeSystems.values())`. -/
def TimeAPI.getAllTimeSystems (s : TimeAPI) : List TimeSystem :=
  s.timeSystems.map (·.2)

/-- `addClock(clock)`: `this.clocks.set(clock.key, clock)`. -/
def TimeAPI.addClock (s : TimeAPI) (clock : Clock) : TimeAPI :=
  { s with clocks := mapSet s.clocks clock.key clock }

/-- `getAllClocks()`: `Array.from(this.clocks.values())`. -/
def TimeAPI.getAllClocks (s : TimeAPI) : List Clock :=
  s.clocks.map (·.2)

/-- `getIndependentContext(key)`: `this.independentContexts.get(key)` — pure
lookup, no creation. -/
def TimeAPI.getIndependentContext (s : TimeAPI) (key : String) :
    Option IndependentTimeContext :=
  mapGet s.independentContexts key

/-- JavaScript truthiness of the optional `clockKey` string argument:
`if (clockKey)` is taken exactly when the argument is present and not the
empty string. -/
def jsTruthy : Option String → Bool
  | none => false
  | some s => s ≠ ""

/-- The closure returned by `addIndependentContext`: it captures `key` and,
when invoked, runs `this.emit('removeOwnContext', key)`. -/
structure ReleaseClosure where
  key : String
  deriving Repr, DecidableEq

/-- Invoking the release closure on the current `TimeAPI` state:
`() => { this.emit('removeOwnContext', key); }`. -/
def runRelease (r : ReleaseClosure) (s : TimeAPI) : TimeAPI :=
  { s with emitted := s.emitted ++ [("removeOwnContext", r.key)] }

/-- `addIndependentContext(key, value, clockKey)`.  The JavaScript body
looks the context up with `getIndependentContext` and immediately calls
`timeContext.resetContext()`; when the lookup yields `undefined` this throws
a `TypeError` before any state change, embedded as `none`.  Otherwise the
method-call trace on the context is extended, the event
`('refreshContext', key)` is emitted, and the release closure is returned. -/
def TimeAPI.addIndependentContext (s : TimeAPI) (key : String) (value : TimeValue)
    (clockKey : Option String) : Option (TimeAPI × ReleaseClosure) :=
  match s.getIndependentContext key with
  | none => none
  | some timeContext =>
    let newCalls :=
      if jsTruthy clockKey then
        [TCCall.resetContext, TCCall.setMode REALTIME_MODE_KEY,
         TCCall.setClock (clockKey.getD "") value]
      else
        [TCCall.resetContext, TCCall.setMode FIXED_MODE_KEY,
         TCCall.setBounds value]
    let timeContext' := { timeContext with calls := timeContext.calls ++ newCalls }
    some ({ s with
            independentContexts := mapSet s.independentContexts key timeContext',
            emitted := s.emitted ++ [("refreshContext", key)] },
          ⟨key⟩)

/-- The argument of `getContextForView`: either a genuine array (possibly
empty) or a non-array / null / undefined value. -/
inductive PathArg where
  | invalid : PathArg
  | path (objectPath : ObjectPath) : PathArg
  deriving Repr, DecidableEq

/-- The context returned by `getContextForView`: `this` (the global time
context) or an independent time context. -/
inductive ViewContext where
  | global : ViewContext
  | independent (tc : IndependentTimeContext) : ViewContext
  deriving Repr, DecidableEq

/-- `new IndependentTimeContext(this.openmct, this, objectPath)`: allocate a
fresh context for the given path. -/
def TimeAPI.newIndependentContext (s : TimeAPI) (objectPath : ObjectPath) :
    IndependentTimeContext × TimeAPI :=
  (⟨s.nextId, objectPath, []⟩, { s with nextId := s.nextId + 1 })

/-- `getContextForView(objectPath)`.  Throws (`Except.error`) only when the
argument is `null`/`undefined` or not an array; `objectPath.length &&
makeKeyString(objectPath[0].identifier)` is falsy for an empty array or a
falsy key, in which case `this` (the global context) is returned.  Otherwise
the independent-context registry is consulted, with lazy creation and
relative-path invalidation. -/
def TimeAPI.getContextForView (s : TimeAPI) (api : ObjectAPI) (arg : PathArg) :
    Except String (TimeAPI × ViewContext) :=
  match arg with
  | .invalid => .error "No objectPath provided"
  | .path objectPath =>
    match objectPath with
    | [] => .ok (s, .global)
    | obj :: _ =>
      let viewKey := api.makeKeyString obj.identifier
      if viewKey = "" then
        .ok (s, .global)
      else
        match s.getIndependentContext viewKey with
        | none =>
          let (viewTimeContext, s1) := s.newIndependentContext objectPath
          .ok ({ s1 with
                 independentContexts :=
                   mapSet s1.independentContexts viewKey viewTimeContext },
               .independent viewTimeContext)
        | some viewTimeContext =>
          let currentPath := api.getRelativePath viewTimeContext.objectPath
          let newPath := api.getRelativePath objectPath
          if currentPath ≠ newPath then
            let s1 :=
              { s with independentContexts :=
                  mapDelete s.independentContexts viewKey }
            let (viewTimeContext2, s2) := s1.newIndependentContext objectPath
            .ok ({ s2 with
                   independentContexts :=
                     mapSet s2.independentContexts viewKey viewTimeContext2 },
                 .independent viewTimeContext2)
          else
            .ok (s, .independent viewTimeContext)

/-! ## Registration-sequence helpers and concrete sample data -/

/-- A sequence of `addTimeSystem` calls, in order. -/
def registerAllTimeSystems (s : TimeAPI) (tss : List TimeSystem) : TimeAPI :=
  tss.foldl TimeAPI.addTimeSystem s

/-- A sequence of `addClock` calls, in order. -/
def registerAllClocks (s : TimeAPI) (cs : List Clock) : TimeAPI :=
  cs.foldl TimeAPI.addClock s

/-- A concrete instantiation of the external object API: identifiers are
their own key strings, and the relative path of an object path joins the
identifiers with `/`. -/
def sampleObjectAPI : ObjectAPI :=
  ⟨fun i => i, fun p => String.intercalate "/" (p.map (·.identifier))⟩

/-- A concrete instantiation of the external object API in which no
identifier yields a usable (truthy) key string. -/
def falsyObjectAPI : ObjectAPI :=
  ⟨fun _ => "", fun p => String.intercalate "/" (p.map (·.identifier))⟩

/-- A concrete one-element object path. -/
def samplePath : ObjectPath := [⟨"obj-42"⟩]

/-- A concrete independent time context registered for `samplePath`. -/
def sampleContext : IndependentTimeContext := ⟨0, samplePath, []⟩

/-- A concrete `TimeAPI` state with `sampleContext` registered under
`"obj-42"`. -/
def sampleState : TimeAPI := ⟨[], [], [("obj-42", sampleContext)], [], 1⟩

/-- A concrete independent time context created for a path that no longer
matches its registry key's current path. -/
def staleContext : IndependentTimeContext := ⟨0, [⟨"moved-obj"⟩], []⟩

/-- A concrete `TimeAPI` state whose entry for `"obj-42"` holds
`staleContext`, created for a different path. -/
def staleState : TimeAPI := ⟨[], [], [("obj-42", staleContext)], [], 1⟩

/-! ## Association-list (`Map`) lemmas -/

theorem mapGet_eq_none_iff {α : Type} (m : List (String × α)) (k : String) :
    mapGet m k = none ↔ k ∉ m.map Prod.fst := by
  induction m with
  | nil => simp [mapGet]
  | cons e rest ih =>
    obtain ⟨k', v⟩ := e
    by_cases h : k' = k
    · subst h
      simp [mapGet]
    · simp [mapGet, h, ih, Ne.symm h]

theorem mapGet_mapSet_self {α : Type} (m : List (String × α)) (k : String) (v : α) :
    mapGet (mapSet m k v) k = some v := by
  induction m with
  | nil => simp [mapSet, mapGet]
  | cons e rest ih =>
    obtain ⟨k', v'⟩ := e
    by_cases h : k' = k
    · simp [mapSet, h, mapGet]
    · simp [mapSet, h, mapGet, ih]

theorem mapSet_eq_append_of_get_none {α : Type} (m : List (String × α)) (k : String)
    (v : α) (h : mapGet m k = none) : mapSet m k v = m ++ [(k, v)] := by
  induction m with
  | nil => simp [mapSet]
  | cons e rest ih =>
    obtain ⟨k', v'⟩ := e
    by_cases hk : k' = k
    · subst hk
      simp [mapGet] at h
    · simp [mapGet, hk] at h
      simp [mapSet, hk, ih h]

theorem mapGet_append_of_get_none {α : Type} (m l : List (String × α)) (k : String)
    (h : mapGet m k = none) : mapGet (m ++ l) k = mapGet l k := by
  induction m with
  | nil => simp
  | cons e rest ih =>
    obtain ⟨k', v'⟩ := e
    by_cases hk : k' = k
    · subst hk
      simp [mapGet] at h
    · simp [mapGet, hk] at h
      simp [mapGet, hk, ih h]

theorem mapSet_mapSet_self {α : Type} (m : List (String × α)) (k : String) (v1 v2 : α) :
    mapSet (mapSet m k v1) k v2 = mapSet m k v2 := by
  induction m with
  | nil => simp [mapSet]
  | cons e rest ih =>
    obtain ⟨k', v'⟩ := e
    by_cases h : k' = k
    · simp [mapSet, h]
    · simp [mapSet, h, ih]

theorem forall_ne_of_get_none {α : Type} (m : List (String × α)) (k : String)
    (h : mapGet m k = none) : ∀ e ∈ m, e.1 ≠ k := by
  intro e he
  rw [mapGet_eq_none_iff] at h
  intro hk
  exact h (hk ▸ List.mem_map_of_mem Prod.fst he)

theorem keys_mapSet_of_get_none {α : Type} (m : List (String × α)) (k : String) (v : α)
    (h : mapGet m k = none) :
    (mapSet m k v).map Prod.fst = m.map Prod.fst ++ [k] := by
  rw [mapSet_eq_append_of_get_none m k v h]
  simp

theorem keys_mapDelete_sublist {α : Type} (m : List (String × α)) (k : String) :
    ((mapDelete m k).map Prod.fst).Sublist (m.map Prod.fst) := by
  induction m with
  | nil => simp [mapDelete]
  | cons e rest ih =>
    obtain ⟨k', v'⟩ := e
    by_cases h : k' = k
    · simp only [mapDelete, if_pos h, List.map_cons]
      exact List.sublist_cons_self k' (rest.map Prod.fst)
    · simp only [mapDelete, if_neg h, List.map_cons]
      exact ih.cons₂ k'

theorem nodup_keys_mapDelete {α : Type} (m : List (String × α)) (k : String)
    (h : (m.map Prod.fst).Nodup) : ((mapDelete m k).map Prod.fst).Nodup :=
  h.sublist (keys_mapDelete_sublist m k)

theorem mapGet_mapDelete_self {α : Type} (m : List (String × α)) (k : String)
    (h : (m.map Prod.fst).Nodup) : mapGet (mapDelete m k) k = none := by
  induction m with
  | nil => simp [mapDelete, mapGet]
  | cons e rest ih =>
    obtain ⟨k', v'⟩ := e
    simp only [List.map_cons, List.nodup_cons] at h
    by_cases hk : k' = k
    · subst hk
      simp only [mapDelete, if_pos rfl]
      rw [mapGet_eq_none_iff]
      exact h.1
    · simp [mapDelete, hk, mapGet, ih h.2]

theorem nodup_keys_mapSet_of_get_none {α : Type} (m : List (String × α)) (k : String)
    (v : α) (hget : mapGet m k = none) (h : (m.map Prod.fst).Nodup) :
    ((mapSet m k v).map Prod.fst).Nodup := by
  rw [keys_mapSet_of_get_none m k v hget]
  rw [List.nodup_append]
  refine ⟨h, List.nodup_singleton k, ?_⟩
  intro a ha hb
  simp at hb
  subst hb
  exact (mapGet_eq_none_iff m a).mp hget ha

/-! ## Registration-sequence lemmas -/

theorem registerAllTimeSystems_timeSystems (s : TimeAPI) (tss : List TimeSystem)
    (habs : ∀ ts ∈ tss, mapGet s.timeSystems ts.key = none)
    (hnodup : (tss.map TimeSystem.key).Nodup) :
    (registerAllTimeSystems s tss).timeSystems =
      s.timeSystems ++ tss.map (fun ts => (ts.key, ts)) := by
  induction tss generalizing s with
  | nil => simp [registerAllTimeSystems]
  | cons ts rest ih =>
    simp only [List.map_cons, List.nodup_cons] at hnodup
    have habs0 := habs ts (List.mem_cons_self ts rest)
    have hstep : (s.addTimeSystem ts).timeSystems = s.timeSystems ++ [(ts.key, ts)] := by
      simp [TimeAPI.addTimeSystem, mapSet_eq_append_of_get_none _ _ _ habs0]
    have habs' : ∀ ts' ∈ rest, mapGet (s.addTimeSystem ts).timeSystems ts'.key = none := by
      intro ts' hmem
      rw [hstep, mapGet_append_of_get_none _ _ _ (habs ts' (List.mem_cons_of_mem ts hmem))]
      have hne : ts.key ≠ ts'.key := by
        intro hcontra
        exact hnodup.1 (hcontra ▸ List.mem_map_of_mem TimeSystem.key hmem)
      simp [mapGet, hne]
    have := ih (s.addTimeSystem ts) habs' hnodup.2
    simp only [registerAllTimeSystems, List.foldl_cons] at this ⊢
    rw [this, hstep]
    simp

theorem registerAllClocks_clocks (s : TimeAPI) (cs : List Clock)
    (habs : ∀ c ∈ cs, mapGet s.clocks c.key = none)
    (hnodup : (cs.map Clock.key).Nodup) :
    (registerAllClocks s cs).clocks = s.clocks ++ cs.map (fun c => (c.key, c)) := by
  induction cs generalizing s with
  | nil => simp [registerAllClocks]
  | cons c rest ih =>
    simp only [List.map_cons, List.nodup_cons] at hnodup
    have habs0 := habs c (List.mem_cons_self c rest)
    have hstep : (s.addClock c).clocks = s.clocks ++ [(c.key, c)] := by
      simp [TimeAPI.addClock, mapSet_eq_append_of_get_none _ _ _ habs0]
    have habs' : ∀ c' ∈ rest, mapGet (s.addClock c).clocks c'.key = none := by
      intro c' hmem
      rw [hstep, mapGet_append_of_get_none _ _ _ (habs c' (List.mem_cons_of_mem c hmem))]
      have hne : c.key ≠ c'.key := by
        intro hcontra
        exact hnodup.1 (hcontra ▸ List.mem_map_of_mem Clock.key hmem)
      simp [mapGet, hne]
    have := ih (s.addClock c) habs' hnodup.2
    simp only [registerAllClocks, List.foldl_cons] at this ⊢
    rw [this, hstep]
    simp

/-! ## Branch characterizations of `getContextForView` -/

theorem getContextForView_create
    (api : ObjectAPI) (s : TimeAPI) (obj : DomainObject) (rest : ObjectPath)
    (hkey : api.makeKeyString obj.identifier ≠ "")
    (hm : s.getIndependentContext (api.makeKeyString obj.identifier) = none) :
    s.getContextForView api (.path (obj :: rest)) =
      .ok ({ s with
             independentContexts := mapSet s.independentContexts
               (api.makeKeyString obj.identifier) ⟨s.nextId, obj :: rest, []⟩,
             nextId := s.nextId + 1 },
           .independent ⟨s.nextId, obj :: rest, []⟩) := by
  simp only [TimeAPI.getContextForView, TimeAPI.newIndependentContext, if_neg hkey, hm]

theorem getContextForView_hit
    (api : ObjectAPI) (s : TimeAPI) (obj : DomainObject) (rest : ObjectPath)
    (tc : IndependentTimeContext)
    (hkey : api.makeKeyString obj.identifier ≠ "")
    (hm : s.getIndependentContext (api.makeKeyString obj.identifier) = some tc)
    (hpath : api.getRelativePath tc.objectPath = api.getRelativePath (obj :: rest)) :
    s.getContextForView api (.path (obj :: rest)) = .ok (s, .independent tc) := by
  have hnot : ¬(api.getRelativePath tc.objectPath ≠ api.getRelativePath (obj :: rest)) := by
    simp [hpath]
  simp only [TimeAPI.getContextForView, TimeAPI.newIndependentContext, if_neg hkey, hm,
    if_neg hnot]

theorem getContextForView_stale
    (api : ObjectAPI) (s : TimeAPI) (obj : DomainObject) (rest : ObjectPath)
    (tc : IndependentTimeContext)
    (hkey : api.makeKeyString obj.identifier ≠ "")
    (hm : s.getIndependentContext (api.makeKeyString obj.identifier) = some tc)
    (hpath : api.getRelativePath tc.objectPath ≠ api.getRelativePath (obj :: rest)) :
    s.getContextForView api (.path (obj :: rest)) =
      .ok ({ s with
             independentContexts := mapSet
               (mapDelete s.independentContexts (api.makeKeyString obj.identifier))
               (api.makeKeyString obj.identifier) ⟨s.nextId, obj :: rest, []⟩,
             nextId := s.nextId + 1 },
           .independent ⟨s.nextId, obj :: rest, []⟩) := by
  simp only [TimeAPI.getContextForView, TimeAPI.newIndependentContext, if_neg hkey, hm,
    if_pos hpath]

/-! ## Claim theorems -/

/-- C1: for an object key with a registered independent-context entry,
calling `getContextForView` with a path whose relative-path string differs
from the stored entry's discards the old context, creates a fresh
`IndependentTimeContext` for the new path (a new allocation, distinct from
the old one), stores it as the registry entry for that key — so, given the
`Map` invariant of pairwise-distinct keys on entry, at most one entry per
key remains — and returns the fresh context. -/
theorem getContextForView_stale_path_replaces
    (api : ObjectAPI) (s : TimeAPI) (obj : DomainObject) (rest : ObjectPath)
    (tc : IndependentTimeContext)
    (hkey : api.makeKeyString obj.identifier ≠ "")
    (hreg : s.getIndependentContext (api.makeKeyString obj.identifier) = some tc)
    (hpath : api.getRelativePath tc.objectPath ≠ api.getRelativePath (obj :: rest))
    (hnodup : (s.independentContexts.map Prod.fst).Nodup)
    (hid : tc.id < s.nextId) :
    ∃ s',
      s.getContextForView api (.path (obj :: rest)) =
        .ok (s', .independent ⟨s.nextId, obj :: rest, []⟩) ∧
      (⟨s.nextId, obj :: rest, []⟩ : IndependentTimeContext) ≠ tc ∧
      s'.getIndependentContext (api.makeKeyString obj.identifier) =
        some ⟨s.nextId, obj :: rest, []⟩ ∧
      (s'.independentContexts.map Prod.fst).Nodup := by
  refine ⟨_, getContextForView_stale api s obj rest tc hkey hreg hpath, ?_, ?_, ?_⟩
  · intro hcontra
    have hids := congrArg IndependentTimeContext.id hcontra
    simp only at hids
    omega
  · simp [TimeAPI.getIndependentContext, mapGet_mapSet_self]
  · exact nodup_keys_mapSet_of_get_none _ _ _
      (mapGet_mapDelete_self _ _ hnodup) (nodup_keys_mapDelete _ _ hnodup)

/-- Witness for C1: a stored context created for path `moved-obj` is
replaced when the same key resolves with path `obj-42`. -/
theorem getContextForView_stale_path_replaces_witness :
    ∃ s',
      staleState.getContextForView sampleObjectAPI (.path [⟨"obj-42"⟩]) =
        .ok (s', .independent ⟨1, [⟨"obj-42"⟩], []⟩) ∧
      (⟨1, [⟨"obj-42"⟩], []⟩ : IndependentTimeContext) ≠ staleContext ∧
      s'.getIndependentContext (sampleObjectAPI.makeKeyString "obj-42") =
        some ⟨1, [⟨"obj-42"⟩], []⟩ ∧
      (s'.independentContexts.map Prod.fst).Nodup :=
  getContextForView_stale_path_replaces sampleObjectAPI staleState ⟨"obj-42"⟩ []
    staleContext (by decide) (by decide) (by decide) (by decide) (by decide)

/-- C2: for a non-empty object path whose first element yields a (truthy)
lookup key, calling `getContextForView` twice in succession with the
unchanged path returns the same context both times, the second call leaving
the state — in particular the registry entry — unchanged. -/
theorem getContextForView_idempotent
    (api : ObjectAPI) (s : TimeAPI) (obj : DomainObject) (rest : ObjectPath)
    (hkey : api.makeKeyString obj.identifier ≠ "") :
    ∃ s1 c1,
      s.getContextForView api (.path (obj :: rest)) = .ok (s1, .independent c1) ∧
      s1.getContextForView api (.path (obj :: rest)) = .ok (s1, .independent c1) := by
  cases hm : s.getIndependentContext (api.makeKeyString obj.identifier) with
  | none =>
    refine ⟨_, _, getContextForView_create api s obj rest hkey hm, ?_⟩
    apply getContextForView_hit
    · exact hkey
    · simp [TimeAPI.getIndependentContext, mapGet_mapSet_self]
    · rfl
  | some tc =>
    by_cases hpath : api.getRelativePath tc.objectPath = api.getRelativePath (obj :: rest)
    · exact ⟨s, tc, getContextForView_hit api s obj rest tc hkey hm hpath,
        getContextForView_hit api s obj rest tc hkey hm hpath⟩
    · refine ⟨_, _, getContextForView_stale api s obj rest tc hkey hm hpath, ?_⟩
      apply getContextForView_hit
      · exact hkey
      · simp [TimeAPI.getIndependentContext, mapGet_mapSet_self]
      · rfl

/-- Witness for C2 at a concrete path and empty starting registry. -/
theorem getContextForView_idempotent_witness :
    ∃ s1 c1,
      TimeAPI.init.getContextForView sampleObjectAPI (.path [⟨"obj-42"⟩]) =
        .ok (s1, .independent c1) ∧
      s1.getContextForView sampleObjectAPI (.path [⟨"obj-42"⟩]) =
        .ok (s1, .independent c1) :=
  getContextForView_idempotent sampleObjectAPI TimeAPI.init ⟨"obj-42"⟩ [] (by decide)

/-- C4 counterexample: contrary to the claim, `addIndependentContext` does
not lazily create a context — on a state with no entry for the key the pure
lookup yields nothing and the call fails instead of succeeding. -/
theorem addIndependentContext_no_lazy_create :
    TimeAPI.init.getIndependentContext "obj-42" = none ∧
    TimeAPI.init.addIndependentContext "obj-42" (10, 20) none = none :=
  ⟨rfl, rfl⟩

/-- C4 amended: `addIndependentContext(key, value, clockKey)` resolves the
independent time context for `key` by pure lookup — it succeeds only when a
context is already registered for the key (lazy creation happens in
`getContextForView`, not here) — and in that case resets the context before
applying the new state. -/
theorem addIndependentContext_resets_registered
    (s : TimeAPI) (key : String) (value : TimeValue) (clockKey : Option String)
    (tc : IndependentTimeContext) (hreg : s.getIndependentContext key = some tc) :
    ∃ s' r tc', s.addIndependentContext key value clockKey = some (s', r) ∧
      s'.getIndependentContext key = some tc' ∧
      tc'.objectPath = tc.objectPath ∧
      ∃ tail, tc'.calls = tc.calls ++ (TCCall.resetContext :: tail) := by
  simp only [TimeAPI.addIndependentContext, hreg]
  refine ⟨_, _, ⟨tc.id, tc.objectPath,
      tc.calls ++ (if jsTruthy clockKey then
        [TCCall.resetContext, TCCall.setMode REALTIME_MODE_KEY,
         TCCall.setClock (clockKey.getD "") value]
      else
        [TCCall.resetContext, TCCall.setMode FIXED_MODE_KEY,
         TCCall.setBounds value])⟩, rfl, ?_, rfl, ?_⟩
  · simp [TimeAPI.getIndependentContext, mapGet_mapSet_self]
  · by_cases h : jsTruthy clockKey
    · exact ⟨[TCCall.setMode REALTIME_MODE_KEY, TCCall.setClock (clockKey.getD "") value],
        by simp [h]⟩
    · exact ⟨[TCCall.setMode FIXED_MODE_KEY, TCCall.setBounds value], by simp [h]⟩

/-- Witness for the C4 amended claim at a concrete registered key. -/
theorem addIndependentContext_resets_registered_witness :
    ∃ s' r tc', sampleState.addIndependentContext "obj-42" (10, 20) none = some (s', r) ∧
      s'.getIndependentContext "obj-42" = some tc' ∧
      tc'.objectPath = sampleContext.objectPath ∧
      ∃ tail, tc'.calls = sampleContext.calls ++ (TCCall.resetContext :: tail) :=
  addIndependentContext_resets_registered sampleState "obj-42" (10, 20) none
    sampleContext rfl

/-- C5: on a resolvable (registered) context, `addIndependentContext`
proceeds as follows after the reset: if `clockKey` is provided (truthy —
present and non-empty, matching the source's `if (clockKey)` test) the
context is switched to REALTIME mode and `setClock(clockKey, value)` is
called on it; otherwise it is switched to FIXED mode and `setBounds(value)`
is called; in both cases a global `refreshContext` notification keyed by
`key` is then emitted. -/
theorem addIndependentContext_mode_dispatch
    (s : TimeAPI) (key : String) (value : TimeValue) (clockKey : Option String)
    (tc : IndependentTimeContext) (hreg : s.getIndependentContext key = some tc) :
    ∃ s' r, s.addIndependentContext key value clockKey = some (s', r) ∧
      (∃ tc', s'.getIndependentContext key = some tc' ∧
        tc'.calls = tc.calls ++
          (if jsTruthy clockKey then
              [TCCall.resetContext, TCCall.setMode REALTIME_MODE_KEY,
               TCCall.setClock (clockKey.getD "") value]
            else
              [TCCall.resetContext, TCCall.setMode FIXED_MODE_KEY,
               TCCall.setBounds value])) ∧
      s'.emitted = s.emitted ++ [("refreshContext", key)] := by
  simp only [TimeAPI.addIndependentContext, hreg]
  refine ⟨_, _, rfl, ⟨⟨tc.id, tc.objectPath,
      tc.calls ++ (if jsTruthy clockKey then
        [TCCall.resetContext, TCCall.setMode REALTIME_MODE_KEY,
         TCCall.setClock (clockKey.getD "") value]
      else
        [TCCall.resetContext, TCCall.setMode FIXED_MODE_KEY,
         TCCall.setBounds value])⟩, ?_, rfl⟩, rfl⟩
  simp [TimeAPI.getIndependentContext, mapGet_mapSet_self]

/-- Witness for C5 at a concrete registered key with a real-time clock. -/
theorem addIndependentContext_mode_dispatch_witness :
    ∃ s' r, sampleState.addIndependentContext "obj-42" (0, 1000) (some "lc") =
        some (s', r) ∧
      (∃ tc', s'.getIndependentContext "obj-42" = some tc' ∧
        tc'.calls = sampleContext.calls ++
          (if jsTruthy (some "lc") then
              [TCCall.resetContext, TCCall.setMode REALTIME_MODE_KEY,
               TCCall.setClock ((some "lc").getD "") (0, 1000)]
            else
              [TCCall.resetContext, TCCall.setMode FIXED_MODE_KEY,
               TCCall.setBounds (0, 1000)])) ∧
      s'.emitted = sampleState.emitted ++ [("refreshContext", "obj-42")] :=
  addIndependentContext_mode_dispatch sampleState "obj-42" (0, 1000) (some "lc")
    sampleContext rfl

/-- C6: the release function returned by a successful
`addIndependentContext(key, ...)` call captures exactly `key`, and invoking
it on any state emits a `removeOwnContext` notification keyed by that key
and performs no other effect: the independent-context registry, the two
descriptor registries, and the allocation counter are all left unchanged. -/
theorem release_closure_only_emits
    (s : TimeAPI) (key : String) (value : TimeValue) (clockKey : Option String)
    (s' : TimeAPI) (r : ReleaseClosure)
    (h : s.addIndependentContext key value clockKey = some (s', r)) :
    r.key = key ∧
    ∀ t : TimeAPI,
      (runRelease r t).independentContexts = t.independentContexts ∧
      (runRelease r t).timeSystems = t.timeSystems ∧
      (runRelease r t).clocks = t.clocks ∧
      (runRelease r t).nextId = t.nextId ∧
      (runRelease r t).emitted = t.emitted ++ [("removeOwnContext", key)] := by
  have hr : r.key = key := by
    cases hm : s.getIndependentContext key with
    | none => simp [TimeAPI.addIndependentContext, hm] at h
    | some tc =>
      simp only [TimeAPI.addIndependentContext, hm, Option.some.injEq, Prod.mk.injEq] at h
      rw [← h.2]
  obtain ⟨rk⟩ := r
  cases hr
  exact ⟨rfl, fun t => ⟨rfl, rfl, rfl, rfl, rfl⟩⟩

/-- Witness for C6: releasing a concrete override only appends the
`removeOwnContext` notification. -/
theorem release_closure_only_emits_witness :
    (ReleaseClosure.mk "obj-42").key = "obj-42" ∧
    (runRelease ⟨"obj-42"⟩ sampleState).independentContexts =
      sampleState.independentContexts ∧
    (runRelease ⟨"obj-42"⟩ sampleState).timeSystems = sampleState.timeSystems ∧
    (runRelease ⟨"obj-42"⟩ sampleState).clocks = sampleState.clocks ∧
    (runRelease ⟨"obj-42"⟩ sampleState).nextId = sampleState.nextId ∧
    (runRelease ⟨"obj-42"⟩ sampleState).emitted =
      sampleState.emitted ++ [("removeOwnContext", "obj-42")] := by
  have h := release_closure_only_emits sampleState "obj-42" (10, 20) none _
    ⟨"obj-42"⟩ rfl
  exact ⟨h.1, h.2 sampleState⟩

/-- C8: for every sequence of `addTimeSystem` (respectively `addClock`)
calls with pairwise distinct keys, `getAllTimeSystems` (respectively
`getAllClocks`) returns the registered descriptors as a sequence in
registration order, each registered descriptor appearing exactly once. -/
theorem registries_registration_order
    (tss : List TimeSystem) (cs : List Clock)
    (h1 : (tss.map TimeSystem.key).Nodup) (h2 : (cs.map Clock.key).Nodup) :
    (registerAllTimeSystems TimeAPI.init tss).getAllTimeSystems = tss ∧
    (registerAllClocks TimeAPI.init cs).getAllClocks = cs := by
  constructor
  · rw [TimeAPI.getAllTimeSystems,
      registerAllTimeSystems_timeSystems TimeAPI.init tss (fun ts _ => rfl) h1]
    simp [TimeAPI.init, Function.comp_def]
  · rw [TimeAPI.getAllClocks,
      registerAllClocks_clocks TimeAPI.init cs (fun c _ => rfl) h2]
    simp [TimeAPI.init, Function.comp_def]

/-- Witness for C8 at concrete registries. -/
theorem registries_registration_order_witness :
    (registerAllTimeSystems TimeAPI.init
        [⟨"utc", "UTC"⟩, ⟨"sols", "Sols"⟩]).getAllTimeSystems =
      [⟨"utc", "UTC"⟩, ⟨"sols", "Sols"⟩] ∧
    (registerAllClocks TimeAPI.init [⟨"local-clock", "Local Clock"⟩]).getAllClocks =
      [⟨"local-clock", "Local Clock"⟩] :=
  registries_registration_order [⟨"utc", "UTC"⟩, ⟨"sols", "Sols"⟩]
    [⟨"local-clock", "Local Clock"⟩] (by decide) (by decide)

/-- C9: registering a second descriptor under an already-registered key
raises no error (`Map.set` is total) and silently overwrites: the composite
state equals the one obtained by registering only the second descriptor, and
when the key was fresh beforehand, `getAll` afterwards is the previous
sequence with exactly the second descriptor appended at the position the
original registration took. -/
theorem duplicate_registration_overwrites
    (s : TimeAPI) (ts1 ts2 : TimeSystem) (c1 c2 : Clock)
    (hts : ts1.key = ts2.key) (hc : c1.key = c2.key)
    (hts0 : mapGet s.timeSystems ts2.key = none)
    (hc0 : mapGet s.clocks c2.key = none) :
    (s.addTimeSystem ts1).addTimeSystem ts2 = s.addTimeSystem ts2 ∧
    ((s.addTimeSystem ts1).addTimeSystem ts2).getAllTimeSystems =
      s.getAllTimeSystems ++ [ts2] ∧
    ((s.addTimeSystem ts1).addTimeSystem ts2).timeSystems.filter
      (fun e => e.1 == ts2.key) = [(ts2.key, ts2)] ∧
    (s.addClock c1).addClock c2 = s.addClock c2 ∧
    ((s.addClock c1).addClock c2).getAllClocks = s.getAllClocks ++ [c2] ∧
    ((s.addClock c1).addClock c2).clocks.filter
      (fun e => e.1 == c2.key) = [(c2.key, c2)] := by
  have ets : (s.addTimeSystem ts1).addTimeSystem ts2 = s.addTimeSystem ts2 := by
    simp only [TimeAPI.addTimeSystem, hts, mapSet_mapSet_self]
  have ec : (s.addClock c1).addClock c2 = s.addClock c2 := by
    simp only [TimeAPI.addClock, hc, mapSet_mapSet_self]
  have hts2 : (s.addTimeSystem ts2).timeSystems = s.timeSystems ++ [(ts2.key, ts2)] := by
    simp [TimeAPI.addTimeSystem, mapSet_eq_append_of_get_none _ _ _ hts0]
  have hc2 : (s.addClock c2).clocks = s.clocks ++ [(c2.key, c2)] := by
    simp [TimeAPI.addClock, mapSet_eq_append_of_get_none _ _ _ hc0]
  have hflt : s.timeSystems.filter (fun e => e.1 == ts2.key) = [] := by
    rw [List.filter_eq_nil_iff]
    intro e he
    simpa using forall_ne_of_get_none s.timeSystems ts2.key hts0 e he
  have hfltc : s.clocks.filter (fun e => e.1 == c2.key) = [] := by
    rw [List.filter_eq_nil_iff]
    intro e he
    simpa using forall_ne_of_get_none s.clocks c2.key hc0 e he
  refine ⟨ets, ?_, ?_, ec, ?_, ?_⟩
  · rw [ets, TimeAPI.getAllTimeSystems, hts2]
    simp [TimeAPI.getAllTimeSystems]
  · rw [ets, hts2, List.filter_append, hflt]
    simp
  · rw [ec, TimeAPI.getAllClocks, hc2]
    simp [TimeAPI.getAllClocks]
  · rw [ec, hc2, List.filter_append, hfltc]
    simp

/-- Witness for C9 at concrete duplicate registrations. -/
theorem duplicate_registration_overwrites_witness :
    (TimeAPI.init.addTimeSystem ⟨"utc", "first"⟩).addTimeSystem ⟨"utc", "second"⟩ =
      TimeAPI.init.addTimeSystem ⟨"utc", "second"⟩ ∧
    ((TimeAPI.init.addTimeSystem ⟨"utc", "first"⟩).addTimeSystem
        ⟨"utc", "second"⟩).getAllTimeSystems =
      TimeAPI.init.getAllTimeSystems ++ [⟨"utc", "second"⟩] ∧
    ((TimeAPI.init.addTimeSystem ⟨"utc", "first"⟩).addTimeSystem
        ⟨"utc", "second"⟩).timeSystems.filter (fun e => e.1 == "utc") =
      [("utc", ⟨"utc", "second"⟩)] ∧
    (TimeAPI.init.addClock ⟨"lc", "first"⟩).addClock ⟨"lc", "second"⟩ =
      TimeAPI.init.addClock ⟨"lc", "second"⟩ ∧
    ((TimeAPI.init.addClock ⟨"lc", "first"⟩).addClock ⟨"lc", "second"⟩).getAllClocks =
      TimeAPI.init.getAllClocks ++ [⟨"lc", "second"⟩] ∧
    ((TimeAPI.init.addClock ⟨"lc", "first"⟩).addClock ⟨"lc", "second"⟩).clocks.filter
      (fun e => e.1 == "lc") = [("lc", ⟨"lc", "second"⟩)] :=
  duplicate_registration_overwrites TimeAPI.init ⟨"utc", "first"⟩ ⟨"utc", "second"⟩
    ⟨"lc", "first"⟩ ⟨"lc", "second"⟩ rfl rfl rfl rfl

/-- C10: for an object key with no registered independent-context entry,
`addIndependentContext` fails (the lookup yields nothing and the immediate
`resetContext()` call raises a `TypeError` before any mutation or emission),
so no successor state exists: the registry is untouched and no
`refreshContext` notification is emitted. -/
theorem addIndependentContext_unregistered_fails
    (s : TimeAPI) (key : String) (value : TimeValue) (clockKey : Option String)
    (h : s.getIndependentContext key = none) :
    s.addIndependentContext key value clockKey = none := by
  simp [TimeAPI.addIndependentContext, h]

/-- Witness for C10 at a concrete never-registered key. -/
theorem addIndependentContext_unregistered_fails_witness :
    TimeAPI.init.getIndependentContext "never-registered" = none ∧
    TimeAPI.init.addIndependentContext "never-registered" (0, 1) (some "lc") = none :=
  ⟨rfl, addIndependentContext_unregistered_fails TimeAPI.init "never-registered"
    (0, 1) (some "lc") rfl⟩

/-- C7: for a non-empty object path whose first element's identifier yields
no (truthy) lookup key, `getContextForView` returns the global time context
(`this`) with the state — in particular the independent-context registry —
unchanged. -/
theorem getContextForView_no_key_global
    (api : ObjectAPI) (s : TimeAPI) (obj : DomainObject) (rest : ObjectPath)
    (hkey : api.makeKeyString obj.identifier = "") :
    s.getContextForView api (.path (obj :: rest)) = .ok (s, .global) := by
  simp [TimeAPI.getContextForView, hkey]

/-- Witness for C7 at a concrete path under `falsyObjectAPI`. -/
theorem getContextForView_no_key_global_witness :
    falsyObjectAPI.makeKeyString "obj-42" = "" ∧
    TimeAPI.init.getContextForView falsyObjectAPI (.path [⟨"obj-42"⟩]) =
      .ok (TimeAPI.init, .global) :=
  ⟨rfl, getContextForView_no_key_global falsyObjectAPI TimeAPI.init ⟨"obj-42"⟩ [] rfl⟩

/-- C3 counterexample: contrary to the claim, an empty object path does not
fail with an `InvalidArgument` condition — an empty array passes both the
truthiness and the `Array.isArray` check, `objectPath.length` is `0`
(falsy), and the global time context is returned with no state change. -/
theorem getContextForView_empty_returns_global :
    TimeAPI.init.getContextForView sampleObjectAPI (.path []) =
      .ok (TimeAPI.init, .global) := rfl

/-- C3 amended: only a null/undefined or non-array argument to
`getContextForView` fails (with the `'No objectPath provided'` error) and
makes no state change; an empty array does not fail — it returns the global
time context and makes no state change. -/
theorem getContextForView_invalid_input
    (api : ObjectAPI) (s : TimeAPI) :
    s.getContextForView api .invalid = .error "No objectPath provided" ∧
    s.getContextForView api (.path []) = .ok (s, .global) :=
  ⟨rfl, rfl⟩

end OpenMCT
